import Mathlib

/-!
Shallow embedding of the clawctl task/routing/dispatch/vault core
(`src/tasks/types.ts`, `src/tasks/store.ts`, `src/tasks/router.ts`,
`src/tasks/dispatch.ts`, `src/tasks/timeout.ts`, `src/types/agent.ts`,
`src/cli/commands/tasks.ts`), together with theorems settling the
specification claims about it.

Conventions of the embedding:
- ISO timestamp strings are represented by their epoch-millisecond value
  (an `Int`), which is what the code extracts from them via `Date.getTime`.
- The persistent JSON task store is the in-memory list of tasks; every
  store operation is a function from the list to the updated list.
- JavaScript truthiness of optional strings and numbers is modelled
  explicitly (`jsTruthy`, `tsTruthy`): `undefined`, the empty string and
  the number `0` are falsy.
- The remote shell and the drop-file protocol are represented by the
  outcomes they deliver (success or raised error per step; file present
  with content or absent), exactly at the interface the code consumes.
- The AES-256-GCM + scrypt primitives of the vault (from `node:crypto`,
  outside this repository) are idealized as an authenticated scheme:
  a ciphertext is a container tagged with the key that produced it, and
  decryption with any other key fails, mirroring GCM authentication;
  scrypt key derivation is modelled as the injective pairing of password
  and salt. JSON (de)serialization of the in-memory secrets map is the
  identity. All vault control flow is translated from the source.
-/

namespace Clawctl

/-! ## Task data model (`src/tasks/types.ts`) -/

inductive TaskStatus where
  | pending
  | assigned
  | running
  | completed
  | failed
  | cancelled
deriving DecidableEq, Repr

structure Task where
  id : String
  title : String
  description : String
  requestedBy : String
  assignedTo : Option String := none
  assignedToName : Option String := none
  routingReason : Option String := none
  status : TaskStatus
  result : Option String := none
  error : Option String := none
  requiredCapabilities : Option (List String) := none
  timeoutSeconds : Option Int := none
  createdAt : Int
  assignedAt : Option Int := none
  completedAt : Option Int := none
deriving DecidableEq, Repr

/-! ## Task store (`src/tasks/store.ts`)

`TaskStore.update` locates the first task with the given id
(`tasks.findIndex`) and merges the updates into it; each public store
operation is `update` with a fixed set of fields.  The store file content
is the task list itself. -/

/-- `TaskStore.update`: replace the first task whose id matches by `f`
applied to it; if no task matches, the store is unchanged. -/
def storeModify : List Task → String → (Task → Task) → List Task
  | [], _, _ => []
  | t :: rest, i, f => if t.id = i then f t :: rest else t :: storeModify rest i f

/-- `TaskStore.get`: first task with the given id. -/
def storeGet : List Task → String → Option Task
  | [], _ => none
  | t :: rest, i => if t.id = i then some t else storeGet rest i

/-- Field merge performed by `TaskStore.assign`. -/
def applyAssign (aid aname : String) (reason : Option String) (now : Int) (t : Task) : Task :=
  { t with assignedTo := some aid, assignedToName := some aname, routingReason := reason,
           status := .assigned, assignedAt := some now }

/-- `TaskStore.assign`. -/
def storeAssign (tasks : List Task) (i aid aname : String) (reason : Option String)
    (now : Int) : List Task :=
  storeModify tasks i (applyAssign aid aname reason now)

/-- Field merge performed by `TaskStore.complete`. -/
def applyComplete (res : String) (now : Int) (t : Task) : Task :=
  { t with status := .completed, result := some res, completedAt := some now }

/-- `TaskStore.complete`. -/
def storeComplete (tasks : List Task) (i res : String) (now : Int) : List Task :=
  storeModify tasks i (applyComplete res now)

/-- Field merge performed by `TaskStore.fail`. -/
def applyFail (err : String) (now : Int) (t : Task) : Task :=
  { t with status := .failed, error := some err, completedAt := some now }

/-- `TaskStore.fail`. -/
def storeFail (tasks : List Task) (i err : String) (now : Int) : List Task :=
  storeModify tasks i (applyFail err now)

/-- Field merge performed by the `tasks cancel` CLI command
(`store.update(id, \x7b status: 'cancelled', completedAt: now \x7d)`). -/
def applyCancel (now : Int) (t : Task) : Task :=
  { t with status := .cancelled, completedAt := some now }

/-- The `tasks cancel` command's store effect. -/
def cliTasksCancel (tasks : List Task) (i : String) (now : Int) : List Task :=
  storeModify tasks i (applyCancel now)

/-! ## Routing engine (`src/tasks/router.ts`) -/

inductive AgentStatus where
  | online
  | offline
  | degraded
  | unknown
  | provisioning
deriving DecidableEq, Repr

inductive AgentRole where
  | orchestrator
  | worker
  | monitor
  | gateway
deriving DecidableEq, Repr

/-- Routing view of an agent.  `capabilities`, `description` and
`sessionKey` are accessed dynamically in the source (`(agent as any).x`)
with defaults `[]` / empty string / absent; they are concrete fields here
with the same defaults. -/
structure Agent where
  id : String
  name : String
  status : AgentStatus
  role : AgentRole
  capabilities : List String := []
  description : String := ""
  sessionKey : Option String := none
deriving DecidableEq, Repr

/-- JavaScript truthiness of an optional string: `undefined` and the
empty string are falsy. -/
def jsTruthy : Option String → Bool
  | none => false
  | some s => s != ""

/-- `needle` occurs contiguously inside the character list: the model of
JavaScript `String.prototype.includes`. -/
def listIncludes (needle : List Char) : List Char → Bool
  | [] => needle.isEmpty
  | c :: rest => needle.isPrefixOf (c :: rest) || listIncludes needle rest

/-- `hay.includes(needle)` on strings. -/
def strIncludes (hay needle : String) : Bool :=
  listIncludes needle.data hay.data

/-- `s.toLowerCase()`: character-wise lowering (computable
reimplementation of `String.toLower` over the character list). -/
def strToLower (s : String) : String :=
  ⟨s.data.map Char.toLower⟩

/-- `s.trim()`: strip leading and trailing whitespace (computable
reimplementation of `String.trim` over the character list). -/
def strTrim (s : String) : String :=
  ⟨((s.data.dropWhile Char.isWhitespace).reverse.dropWhile Char.isWhitespace).reverse⟩

/-- Split a character list at every whitespace character.  Pieces between
consecutive whitespace characters are empty; exactly the nonempty maximal
runs survive any length filter, matching `split(/\s+/)`. -/
def splitWsAux : List Char → List Char → List (List Char)
  | [], acc => [acc.reverse]
  | c :: rest, acc =>
    if c.isWhitespace then acc.reverse :: splitWsAux rest []
    else splitWsAux rest (c :: acc)

/-- `(task.title + ' ' + task.description).toLowerCase()`. -/
def taskText (t : Task) : String :=
  strToLower (t.title ++ " " ++ t.description)

/-- `taskText.split(/\s+/).filter(w => w.length > 4)`. -/
def taskWords (t : Task) : List String :=
  ((splitWsAux (taskText t).data []).map (fun cs => String.mk cs)).filter
    (fun w => w.length > 4)

/-- The score accumulated by `routeTask`'s scoring pass for one agent,
in source order: +10 per exact required-capability match, +5 per worker
capability mentioned in the task text, +1 per long task-text word found in
the agent description, +3 if the agent status is `online`, +2 if the agent
has a (truthy) session key. -/
def routeScore (t : Task) (a : Agent) : Nat :=
  let required := t.requiredCapabilities.getD []
  let s1 := required.foldl (fun s req => if a.capabilities.contains req then s + 10 else s) 0
  let text := taskText t
  let s2 := a.capabilities.foldl (fun s cap => if strIncludes text (strToLower cap) then s + 5 else s) s1
  let desc := strToLower a.description
  let s3 := (taskWords t).foldl (fun s w => if strIncludes desc w then s + 1 else s) s2
  let s4 := if a.status = .online then s3 + 3 else s3
  if jsTruthy a.sessionKey then s4 + 2 else s4

/-- The reason fragments appended by the same pass (the description-word
rule appends none, as in the source). -/
def routeReasons (t : Task) (a : Agent) : List String :=
  let required := t.requiredCapabilities.getD []
  let r1 := required.foldl
    (fun rs req => if a.capabilities.contains req then rs ++ ["has capability: " ++ req] else rs) []
  let text := taskText t
  let r2 := a.capabilities.foldl
    (fun rs cap => if strIncludes text (strToLower cap) then rs ++ ["task mentions: " ++ cap] else rs) r1
  let r3 := if a.status = .online then r2 ++ ["agent is online"] else r2
  if jsTruthy a.sessionKey then r3 ++ ["has session key (direct messaging)"] else r3

structure RouteResult where
  agent : Agent
  reason : String
  score : Nat
deriving DecidableEq, Repr

/-- The `RouteResult` produced for one candidate agent. -/
def scoreAgent (t : Task) (a : Agent) : RouteResult :=
  { agent := a,
    reason :=
      if (routeReasons t a).length > 0 then String.intercalate ", " (routeReasons t a)
      else "no specific match",
    score := routeScore t a }

/-- The filtered, scored, positivity-filtered candidate list of
`routeTask`, before sorting (in roster order). -/
def routeCandidates (t : Task) (agents : List Agent) : List RouteResult :=
  ((agents.filter (fun a => a.status != .offline && a.role != .orchestrator)).map
      (scoreAgent t)).filter (fun r => r.score > 0)

/-- The comparator: `r1` sorts no later than `r2` exactly when the
JavaScript comparator `(a, b) => b.score - a.score` is nonpositive. -/
def routeLe (r1 r2 : RouteResult) : Bool :=
  decide (r2.score ≤ r1.score)

/-- `routeTask`: candidates sorted by score descending.  The JavaScript
`sort((a, b) => b.score - a.score)` is a stable descending sort, which is
exactly `mergeSort` with this comparison. -/
def routeTask (t : Task) (agents : List Agent) : List RouteResult :=
  (routeCandidates t agents).mergeSort routeLe

/-- `bestRoute`: head of the routed list, if any. -/
def bestRoute (t : Task) (agents : List Agent) : Option RouteResult :=
  (routeTask t agents).head?

/-- Number of required capabilities present verbatim in the agent's
capability set (duplicates in the required list each count). -/
def exactMatchCount (t : Task) (a : Agent) : Nat :=
  (t.requiredCapabilities.getD []).countP (fun req => a.capabilities.contains req)

/-- Number of agent capabilities occurring (case-insensitively) in the
task title+description. -/
def fuzzyMatchCount (t : Task) (a : Agent) : Nat :=
  a.capabilities.countP (fun cap => strIncludes (taskText t) (strToLower cap))

/-- Number of words of length > 4 of the task text occurring in the
agent's description. -/
def wordOverlapCount (t : Task) (a : Agent) : Nat :=
  (taskWords t).countP (fun w => strIncludes (strToLower a.description) w)

/-! ## Dispatch channel (`src/tasks/dispatch.ts`) -/

deriving instance DecidableEq for Except

/-- Outcome of each remote step the dispatch path performs, in program
order: `ssh.connect`, `ssh.exec('mkdir -p ...')`,
`ssh.putContent(...)`.  `.error e` means the step raised `e`. -/
structure SshBehavior where
  connectR : Except String Unit
  execR : Except String Unit
  putR : Except String Unit
deriving DecidableEq, Repr

/-- `true` exactly on a raised (rejected) result. -/
def isErrorResult : Except String Unit → Bool
  | .error _ => true
  | .ok _ => false

/-- `dispatchViaSsh`: connect, create the remote task directory, drop the
instruction file, and only then set the task `running` in the store.  A
raised step propagates to the caller and the store write never happens
(the `finally` block only disconnects).  Returns the propagated outcome
and the resulting store content. -/
def dispatchViaSsh (ch : SshBehavior) (t : Task) (store : List Task) :
    Except String Unit × List Task :=
  match ch.connectR with
  | .error e => (.error e, store)
  | .ok _ =>
    match ch.execR with
    | .error e => (.error e, store)
    | .ok _ =>
      match ch.putR with
      | .error e => (.error e, store)
      | .ok _ => (.ok (), storeModify store t.id (fun tk => { tk with status := .running }))

/-- The terminal-status check of the `tasks dispatch` command:
`status === 'completed' || status === 'failed' || status === 'cancelled'`. -/
def isTerminalStatus (s : TaskStatus) : Bool :=
  s == .completed || s == .failed || s == .cancelled

/-- Display name of a status, as interpolated into CLI messages. -/
def statusText : TaskStatus → String
  | .pending => "pending"
  | .assigned => "assigned"
  | .running => "running"
  | .completed => "completed"
  | .failed => "failed"
  | .cancelled => "cancelled"

/-- The `tasks dispatch` CLI command: look the task up, refuse when it is
unassigned or already terminal, look the agent up, then dispatch.  The
second component is the store content after the command. -/
def cliTasksDispatch (store : List Task) (i : String) (agentLookup : String → Option Agent)
    (ch : SshBehavior) : Except String Unit × List Task :=
  match storeGet store i with
  | none => (.error "Task not found.", store)
  | some task =>
    match task.assignedTo with
    | none => (.error "Task is not assigned to any agent.", store)
    | some aid =>
      if isTerminalStatus task.status then
        (.error ("Task is already " ++ statusText task.status ++ "."), store)
      else
        match agentLookup aid with
        | none => (.error "Assigned agent not found in registry.", store)
        | some _ => dispatchViaSsh ch task store

/-! ## Poll (`pollTaskResult` and the `tasks poll` command) -/

/-- The worker-side drop files for one task: content of
`<taskId>.result.md` and `<taskId>.error.md`, when present. -/
structure WorkerFiles where
  resultFile : Option String
  errorFile : Option String
deriving DecidableEq, Repr

/-- Stdout of `cat <file> 2>/dev/null || echo "__NOT_FOUND__"`. -/
def catOrNotFound : Option String → String
  | some content => content
  | none => "__NOT_FOUND__"

inductive PollOutcome where
  | completed (result : String)
  | failed (error : String)
  | running
deriving DecidableEq, Repr

/-- `pollTaskResult`: check the result file first, then the error file;
each check trims the stdout and compares it against the sentinel. -/
def pollTaskResult (files : WorkerFiles) : PollOutcome :=
  let resultOut := catOrNotFound files.resultFile
  if strTrim resultOut != "__NOT_FOUND__" then .completed (strTrim resultOut)
  else
    let errorOut := catOrNotFound files.errorFile
    if strTrim errorOut != "__NOT_FOUND__" then .failed (strTrim errorOut)
    else .running

/-- `checkOnce` of the `tasks poll` command: persist the terminal
transition when the poll reports one, otherwise leave the store alone.
The boolean is `checkOnce`'s "done" result. -/
def pollCheckOnce (store : List Task) (i : String) (files : WorkerFiles) (now : Int) :
    List Task × Bool :=
  match pollTaskResult files with
  | .completed r => (storeComplete store i r now, true)
  | .failed e => (storeFail store i e now, true)
  | .running => (store, false)

/-! ## Timeout enforcer (`src/tasks/timeout.ts`) -/

/-- JavaScript truthiness of the optional `timeoutSeconds` number:
`undefined` and `0` are falsy. -/
def tsTruthy : Option Int → Bool
  | none => false
  | some n => n != 0

/-- A task the sweep times out: status `running` or `assigned`, truthy
`timeoutSeconds`, and elapsed milliseconds since `assignedAt` (falling
back to `createdAt`) exceeding the timeout
(`(now - start) / 1000 > timeoutSeconds`). -/
def overdue (now : Int) (t : Task) : Bool :=
  (t.status == .running || t.status == .assigned) &&
  tsTruthy t.timeoutSeconds &&
  decide (1000 * t.timeoutSeconds.getD 0 < now - t.assignedAt.getD t.createdAt)

/-- `Math.round(x)` for `x = ms / 1000`: floor of `x + 1/2`. -/
def jsRound1000 (ms : Int) : Int :=
  Int.fdiv (ms + 500) 1000

/-- The generated failure message:
`Timed out after <timeout>s (elapsed: <rounded>s)`. -/
def sweepMsg (t : Task) (now : Int) : String :=
  "Timed out after " ++ toString (t.timeoutSeconds.getD 0) ++ "s (elapsed: " ++
    toString (jsRound1000 (now - t.assignedAt.getD t.createdAt)) ++ "s)"

/-- Effect of one sweep on a single task. -/
def sweepStep (now : Int) (t : Task) : Task :=
  if overdue now t then applyFail (sweepMsg t now) now t else t

/-- The loop of `enforceTimeouts`: iterate over the snapshot taken at the
start, calling `store.fail` on the live store for each overdue snapshot
entry and counting them. -/
def sweepLoop (now : Int) : List Task → List Task → Nat → Nat × List Task
  | [], st, c => (c, st)
  | t :: rest, st, c =>
    if overdue now t then
      sweepLoop now rest (storeFail st t.id (sweepMsg t now) now) (c + 1)
    else
      sweepLoop now rest st c

/-- `enforceTimeouts`: run the sweep loop over a snapshot of the store,
returning the number of tasks timed out and the resulting store. -/
def enforceTimeouts (now : Int) (store : List Task) : Nat × List Task :=
  sweepLoop now store store 0

/-- Well-formedness of the store: task ids are distinct (they are
generated by `randomUUID`). -/
def idsNodup (store : List Task) : Prop :=
  (store.map Task.id).Nodup

instance (store : List Task) : Decidable (idsNodup store) := by
  unfold idsNodup; infer_instance

/-! ## Secret vault (`src/types/agent.ts`, `SecretVault`) -/

/-- The password-check plaintext stored encrypted alongside the payload. -/
def CHECK_PLAINTEXT : String := "clawctl-vault-check"

/-- An scrypt-derived key, idealized as the (injective) pair of password
and salt. -/
structure VKey where
  password : String
  salt : Nat
deriving DecidableEq, Repr

/-- `deriveKey(password, salt)` (scrypt, idealized). -/
def deriveKey (password : String) (salt : Nat) : VKey :=
  ⟨password, salt⟩

/-- An AES-256-GCM ciphertext, idealized: it remembers the key it was
produced with, and carries the plaintext it protects.  (For the vault
payload the plaintext is the deserialized secrets map, folding the JSON
round-trip into the identity.) -/
structure EncPayload (α : Type) where
  encKey : VKey
  plaintext : α
deriving DecidableEq, Repr

/-- `encrypt(plaintext, key)`. -/
def encrypt {α : Type} (pt : α) (k : VKey) : EncPayload α :=
  ⟨k, pt⟩

/-- `decrypt(payload, key)`: authenticated decryption fails (GCM tag
mismatch) under any key other than the encrypting one. -/
def decrypt {α : Type} (p : EncPayload α) (k : VKey) : Option α :=
  if p.encKey = k then some p.plaintext else none

structure SecretEntry where
  value : String
  agentId : Option String := none
deriving DecidableEq, Repr

/-- The in-memory secrets map: a JavaScript object keyed by secret name,
in insertion order. -/
abbrev SecretsMap := List (String × SecretEntry)

/-- `secrets[key] = entry`: replace the first binding of the key in
place, else append. -/
def mapSet : SecretsMap → String → SecretEntry → SecretsMap
  | [], k, e => [(k, e)]
  | (k0, e0) :: rest, k, e =>
    if k0 = k then (k, e) :: rest else (k0, e0) :: mapSet rest k e

/-- `secrets[key]` lookup. -/
def mapGet : SecretsMap → String → Option SecretEntry
  | [], _ => none
  | (k0, e0) :: rest, k => if k0 = k then some e0 else mapGet rest k

/-- Well-formedness of a secrets map: keys are distinct, as they are in
any JavaScript object. -/
def keysNodup (m : SecretsMap) : Prop :=
  (m.map Prod.fst).Nodup

instance (m : SecretsMap) : Decidable (keysNodup m) := by
  unfold keysNodup; infer_instance

/-- The on-disk `secrets.json` document. -/
structure SecretsFile where
  salt : Nat
  payload : EncPayload SecretsMap
  check : EncPayload String
deriving DecidableEq, Repr

/-- An open vault: the derived key and the salt it came from. -/
structure SecretVault where
  key : VKey
  salt : Nat
deriving DecidableEq, Repr

/-- `SecretVault.save`: re-encrypt the whole map and the check value and
rewrite the file. -/
def vaultSave (v : SecretVault) (secrets : SecretsMap) : SecretsFile :=
  { salt := v.salt, payload := encrypt secrets v.key, check := encrypt CHECK_PLAINTEXT v.key }

/-- `SecretVault.open`: with an existing file, derive the key from the
stored salt and verify it by decrypting the check value (decryption
failure and check mismatch raise the same error, as the source wraps both
in one catch); with no file, create a fresh vault with a random salt and
write an empty encrypted map. -/
def vaultOpen (password : String) (file? : Option SecretsFile) (freshSalt : Nat) :
    Except String (SecretVault × SecretsFile) :=
  match file? with
  | some file =>
    let key := deriveKey password file.salt
    match decrypt file.check key with
    | some checkValue =>
      if checkValue = CHECK_PLAINTEXT then .ok (⟨key, file.salt⟩, file)
      else .error "Invalid master password."
    | none => .error "Invalid master password."
  | none =>
    let key := deriveKey password freshSalt
    let v : SecretVault := ⟨key, freshSalt⟩
    .ok (v, vaultSave v [])

/-- `SecretVault.load`: decrypt the payload with the vault key. -/
def vaultLoad (v : SecretVault) (file : SecretsFile) : Option SecretsMap :=
  decrypt file.payload v.key

/-- `SecretVault.set`: load, upsert under the key (overwriting any prior
entry whatever its scope), save.  An integrity failure on load
propagates. -/
def vaultSet (v : SecretVault) (file : SecretsFile) (k value : String)
    (agentId : Option String) : Except String SecretsFile :=
  match vaultLoad v file with
  | none => .error "Unsupported state or unable to authenticate data"
  | some secrets => .ok (vaultSave v (mapSet secrets k ⟨value, agentId⟩))

/-- `SecretVault.get`: load, look the key up, and apply the scope filter
`if (agentId && entry.agentId && entry.agentId !== agentId) return undefined`. -/
def vaultGet (v : SecretVault) (file : SecretsFile) (k : String)
    (agentId : Option String) : Except String (Option SecretEntry) :=
  match vaultLoad v file with
  | none => .error "Unsupported state or unable to authenticate data"
  | some secrets =>
    match mapGet secrets k with
    | none => .ok none
    | some entry =>
      if jsTruthy agentId && jsTruthy entry.agentId && entry.agentId != agentId then .ok none
      else .ok (some entry)

/-! ## Concrete fixtures used to instantiate the theorems -/

/-- A cancelled (terminal) task. -/
def wTaskC1 : Task :=
  { id := "t1", title := "demo", description := "d", requestedBy := "cli",
    status := .cancelled, createdAt := 0 }

/-- A completed (terminal) task that is still assigned. -/
def wTaskTerm : Task :=
  { id := "t1b", title := "demo", description := "d", requestedBy := "cli",
    assignedTo := some "a1", status := .completed, result := some "r", createdAt := 0 }

/-- A task requiring two capabilities whose text mentions no capability
tag. -/
def wTask2 : Task :=
  { id := "t2", title := "Collect data", description := "gather sources",
    requestedBy := "cli", status := .pending, createdAt := 0,
    requiredCapabilities := some ["research", "backup"] }

/-- Worker matching both required capabilities of `wTask2`. -/
def wAgent2 : Agent :=
  { id := "wa2", name := "alpha", status := .online, role := .worker,
    capabilities := ["research", "backup"], description := "", sessionKey := some "sess" }

/-- Otherwise-identical worker matching no required capability. -/
def wAgent2b : Agent :=
  { id := "wb2", name := "beta", status := .online, role := .worker,
    capabilities := [], description := "", sessionKey := some "sess" }

/-- A research task for the routing-output claim. -/
def wTask3 : Task :=
  { id := "t3", title := "Do research now", description := "deep research task",
    requestedBy := "cli", status := .pending, createdAt := 0,
    requiredCapabilities := some ["research"] }

def wAgent3 : Agent :=
  { id := "g3", name := "good", status := .online, role := .worker,
    capabilities := ["research"], description := "", sessionKey := none }

def wAgent3off : Agent :=
  { id := "o3", name := "off", status := .offline, role := .worker,
    capabilities := ["research"] }

def wAgent3orch : Agent :=
  { id := "r3", name := "orch", status := .online, role := .orchestrator,
    capabilities := ["research"] }

def wRoster3 : List Agent := [wAgent3off, wAgent3orch, wAgent3]

/-- An assigned task awaiting dispatch. -/
def wTask7 : Task :=
  { id := "t7", title := "ship", description := "ship it", requestedBy := "cli",
    assignedTo := some "a7", status := .assigned, createdAt := 0, assignedAt := some 10 }

/-- A dispatch channel whose connect step raises. -/
def wSsh7 : SshBehavior :=
  { connectR := .error "connect refused", execR := .ok (), putR := .ok () }

/-- A dispatch channel with all steps succeeding. -/
def wSshOk : SshBehavior :=
  { connectR := .ok (), execR := .ok (), putR := .ok () }

/-- A running task 120 s past assignment with a 60 s timeout. -/
def wTask8 : Task :=
  { id := "t8", title := "x", description := "y", requestedBy := "cli",
    status := .running, createdAt := 0, assignedAt := some 0, timeoutSeconds := some 60 }

/-- A running task with `timeoutSeconds = 0`. -/
def wTask10 : Task :=
  { id := "t10", title := "x", description := "y", requestedBy := "cli",
    status := .running, createdAt := 0, assignedAt := some 0, timeoutSeconds := some 0 }

/-- A pre-existing secrets map with an unrelated entry. -/
def wMap4 : SecretsMap := [("other", { value := "x", agentId := none })]

/-- A map with one owner-scoped entry. -/
def wMap6 : SecretsMap := [("api", { value := "v1", agentId := some "agentB" })]

/-- A map with one global entry. -/
def wMap6g : SecretsMap := [("api", { value := "v2", agentId := none })]

/-- A concrete vault. -/
def wVault6 : SecretVault := ⟨deriveKey "pw" 1, 1⟩

/-! ## Lemmas about the routing engine -/

/-- Accumulating a constant increment per matching element is the count of
matching elements times the increment. -/
theorem foldl_add_countP {α : Type} (c : Nat) (p : α → Bool) :
    ∀ (l : List α) (init : Nat),
      l.foldl (fun s x => if p x then s + c else s) init = init + c * l.countP p := by
  intro l
  induction l with
  | nil => intro init; simp
  | cons x xs ih =>
    intro init
    simp only [List.foldl_cons, List.countP_cons, ih]
    by_cases h : p x = true <;> simp [h] <;> ring

/-- The scoring pass computes exactly the additive formula of the spec. -/
theorem routeScore_eq (t : Task) (a : Agent) :
    routeScore t a =
      10 * exactMatchCount t a + 5 * fuzzyMatchCount t a + wordOverlapCount t a
        + (if a.status = AgentStatus.online then 3 else 0)
        + (if jsTruthy a.sessionKey then 2 else 0) := by
  unfold routeScore exactMatchCount fuzzyMatchCount wordOverlapCount
  simp only [foldl_add_countP]
  split_ifs <;> ring

theorem routeLe_trans (x y z : RouteResult) : routeLe x y → routeLe y z → routeLe x z := by
  simp only [routeLe, decide_eq_true_eq]
  omega

theorem routeLe_total (x y : RouteResult) : routeLe x y || routeLe y x := by
  simp only [routeLe, Bool.or_eq_true, decide_eq_true_eq]
  omega

/-- Membership in `routeTask`'s output. -/
theorem mem_routeTask (t : Task) (agents : List Agent) (r : RouteResult) :
    r ∈ routeTask t agents ↔
      ∃ a, a ∈ agents ∧ a.status ≠ AgentStatus.offline ∧ a.role ≠ AgentRole.orchestrator ∧
        0 < routeScore t a ∧ scoreAgent t a = r := by
  unfold routeTask routeCandidates
  rw [List.mem_mergeSort]
  simp only [List.mem_filter, List.mem_map, Bool.and_eq_true, bne_iff_ne, ne_eq,
    decide_eq_true_eq, gt_iff_lt]
  constructor
  · rintro ⟨⟨a, ⟨ha, hs, hr⟩, rfl⟩, hpos⟩
    exact ⟨a, ha, hs, hr, hpos, rfl⟩
  · rintro ⟨a, ha, hs, hr, hpos, rfl⟩
    exact ⟨⟨a, ⟨ha, hs, hr⟩, rfl⟩, hpos⟩

/-- The routed list is sorted by score, descending. -/
theorem routeTask_sorted (t : Task) (agents : List Agent) :
    (routeTask t agents).Pairwise (fun r1 r2 => r2.score ≤ r1.score) := by
  have h : ((routeCandidates t agents).mergeSort routeLe).Pairwise (fun r1 r2 => routeLe r1 r2) :=
    List.sorted_mergeSort routeLe_trans routeLe_total (routeCandidates t agents)
  exact h.imp (fun hab => by simpa [routeLe] using hab)

/-- Stability: among equal scores the routed list preserves the candidate
(roster) order. -/
theorem routeTask_stable (t : Task) (agents : List Agent) (v : Nat) :
    (routeTask t agents).filter (fun r => r.score == v) =
      (routeCandidates t agents).filter (fun r => r.score == v) := by
  have hperm :
      List.Perm ((routeTask t agents).filter (fun r => r.score == v))
        ((routeCandidates t agents).filter (fun r => r.score == v)) :=
    (List.mergeSort_perm (routeCandidates t agents) routeLe).filter _
  have hsub :
      List.Sublist ((routeCandidates t agents).filter (fun r => r.score == v))
        (routeTask t agents) := by
    apply List.sublist_mergeSort routeLe_trans routeLe_total
    · apply List.pairwise_of_forall_mem_list
      intro x hx y hy
      have hxv : x.score = v := by simpa using (List.mem_filter.mp hx).2
      have hyv : y.score = v := by simpa using (List.mem_filter.mp hy).2
      simp [routeLe, hxv, hyv]
    · exact List.filter_sublist _
  have hsub2 :
      List.Sublist ((routeCandidates t agents).filter (fun r => r.score == v))
        ((routeTask t agents).filter (fun r => r.score == v)) := by
    have h := hsub.filter (fun r => r.score == v)
    simpa [List.filter_filter] using h
  exact (hsub2.eq_of_length hperm.length_eq.symm).symm

/-! ## Lemmas about the task store and the timeout sweep -/

theorem sweepStep_id (now : Int) (t : Task) : (sweepStep now t).id = t.id := by
  unfold sweepStep
  split <;> rfl

theorem storeFail_cons_ne (x : Task) (st : List Task) (i msg : String) (now : Int)
    (h : x.id ≠ i) : storeFail (x :: st) i msg now = x :: storeFail st i msg now := by
  simp only [storeFail, storeModify, if_neg h]

/-- The sweep loop never touches a store entry whose id is not in the
snapshot. -/
theorem sweepLoop_cons_store (now : Int) (x : Task) :
    ∀ (ss st : List Task) (c : Nat), (∀ u ∈ ss, u.id ≠ x.id) →
      sweepLoop now ss (x :: st) c =
        ((sweepLoop now ss st c).1, x :: (sweepLoop now ss st c).2) := by
  intro ss
  induction ss with
  | nil => intro st c _; simp [sweepLoop]
  | cons u rest ih =>
    intro st c h
    have hu : u.id ≠ x.id := h u (List.mem_cons_self u rest)
    have hrest : ∀ w ∈ rest, w.id ≠ x.id := fun w hw => h w (List.mem_cons_of_mem u hw)
    by_cases ho : overdue now u
    · simp only [sweepLoop, ho, if_true]
      rw [storeFail_cons_ne x st u.id (sweepMsg u now) now (fun he => hu he.symm)]
      exact ih (storeFail st u.id (sweepMsg u now) now) (c + 1) hrest
    · simp only [sweepLoop, ho, if_false]
      exact ih st c hrest

/-- With distinct ids, the sweep is the pointwise `sweepStep` map together
with the count of overdue snapshot entries. -/
theorem sweepLoop_self (now : Int) :
    ∀ (st : List Task) (c : Nat), (st.map Task.id).Nodup →
      sweepLoop now st st c = (c + st.countP (overdue now), st.map (sweepStep now)) := by
  intro st
  induction st with
  | nil => intro c _; simp [sweepLoop]
  | cons t rest ih =>
    intro c hnd
    have hnotin : t.id ∉ rest.map Task.id := (List.nodup_cons.mp hnd).1
    have hndrest : (rest.map Task.id).Nodup := (List.nodup_cons.mp hnd).2
    have hrest : ∀ u ∈ rest, u.id ≠ t.id := by
      intro u hu he
      exact hnotin (he ▸ List.mem_map_of_mem Task.id hu)
    by_cases ho : overdue now t = true
    · simp only [sweepLoop]
      rw [if_pos ho]
      rw [show storeFail (t :: rest) t.id (sweepMsg t now) now =
          applyFail (sweepMsg t now) now t :: rest by
        simp [storeFail, storeModify]]
      rw [sweepLoop_cons_store now (applyFail (sweepMsg t now) now t) rest rest (c + 1) hrest]
      rw [ih (c + 1) hndrest]
      rw [List.countP_cons, if_pos ho, List.map_cons]
      simp only [Prod.mk.injEq]
      refine ⟨by omega, ?_⟩
      simp [sweepStep, ho]
    · simp only [sweepLoop]
      rw [if_neg ho]
      rw [sweepLoop_cons_store now t rest rest c hrest]
      rw [ih c hndrest]
      rw [List.countP_cons, if_neg ho, List.map_cons]
      simp only [Prod.mk.injEq]
      refine ⟨by omega, ?_⟩
      simp [sweepStep, ho]

/-- `enforceTimeouts` as a pointwise map, for well-formed stores. -/
theorem enforceTimeouts_eq (now : Int) (store : List Task) (h : idsNodup store) :
    enforceTimeouts now store = (store.countP (overdue now), store.map (sweepStep now)) := by
  unfold enforceTimeouts
  simpa using sweepLoop_self now store 0 h

theorem sweepStep_eq_self_of_not_overdue (now : Int) (a : Task) (h : overdue now a = false) :
    sweepStep now a = a := by
  simp [sweepStep, h]

/-- A task the sweep just failed (or left alone) is never overdue again at
the same instant. -/
theorem overdue_sweepStep_false (now : Int) (t : Task) :
    overdue now (sweepStep now t) = false := by
  by_cases h : overdue now t
  · simp only [sweepStep, h, if_true]
    rfl
  · simp only [sweepStep, h, if_false]
    simpa using h

theorem map_ids_sweepStep (now : Int) (store : List Task) :
    (store.map (sweepStep now)).map Task.id = store.map Task.id := by
  rw [List.map_map]
  apply List.map_congr_left
  intro a _
  exact sweepStep_id now a

theorem idsNodup_map_sweepStep (now : Int) (store : List Task) (h : idsNodup store) :
    idsNodup (store.map (sweepStep now)) := by
  unfold idsNodup at *
  rw [map_ids_sweepStep]
  exact h

theorem overdue_after_sweep (now : Int) (store : List Task) :
    ∀ a ∈ store.map (sweepStep now), overdue now a = false := by
  intro a ha
  obtain ⟨u, _, rfl⟩ := List.mem_map.mp ha
  exact overdue_sweepStep_false now u

/-- A task in a terminal status is never overdue. -/
theorem overdue_false_of_terminal (now : Int) (t : Task)
    (h : isTerminalStatus t.status = true) : overdue now t = false := by
  unfold overdue
  rcases hst : t.status <;> simp [hst, isTerminalStatus] at h ⊢

/-- `store.get(id)` finds exactly the member with that id when ids are
distinct. -/
theorem storeGet_of_mem_nodup (t : Task) :
    ∀ (store : List Task), idsNodup store → t ∈ store → storeGet store t.id = some t := by
  intro store
  induction store with
  | nil => intro _ ht; cases ht
  | cons u rest ih =>
    intro h ht
    rcases List.mem_cons.mp ht with heq | htr
    · subst heq
      simp [storeGet]
    · have hne : u.id ≠ t.id := by
        intro he
        have hm : t.id ∈ rest.map Task.id := List.mem_map_of_mem Task.id htr
        exact (List.nodup_cons.mp h).1 (he ▸ hm)
      simp only [storeGet, if_neg hne]
      exact ih (List.nodup_cons.mp h).2 htr

/-! ## Lemmas about the vault -/

theorem mapGet_mapSet_self (m : SecretsMap) (k : String) (e : SecretEntry) :
    mapGet (mapSet m k e) k = some e := by
  induction m with
  | nil => simp [mapSet, mapGet]
  | cons kv rest ih =>
    obtain ⟨k0, e0⟩ := kv
    by_cases h : k0 = k
    · simp [mapSet, h, mapGet]
    · simp [mapSet, h, mapGet, ih]

theorem countP_mapSet (m : SecretsMap) (k : String) (e : SecretEntry) (h : keysNodup m) :
    (mapSet m k e).countP (fun kv => kv.1 == k) = 1 := by
  induction m with
  | nil => simp [mapSet]
  | cons kv rest ih =>
    obtain ⟨k0, e0⟩ := kv
    have h1 : k0 ∉ rest.map Prod.fst := (List.nodup_cons.mp h).1
    have h2 : keysNodup rest := (List.nodup_cons.mp h).2
    by_cases hk : k0 = k
    · subst hk
      have hz : rest.countP (fun kv => kv.1 == k0) = 0 := by
        rw [List.countP_eq_zero]
        intro a ha hbeq
        exact h1 (by
          have : a.1 = k0 := by simpa using hbeq
          exact this ▸ List.mem_map_of_mem Prod.fst ha)
      simp [mapSet, List.countP_cons, hz]
    · simp [mapSet, hk, List.countP_cons, ih h2, Ne.symm hk]

/-! ## Claim theorems -/

/-- C1 (counterexample): the task subsystem does not leave terminal states
untouched.  `TaskStore.complete` — the store operation behind the
`tasks complete` command — carries no terminal-state guard, so applied to
the cancelled task `wTaskC1` it overwrites the status with `completed`. -/
theorem terminal_not_closed_counterexample :
    wTaskC1.status = TaskStatus.cancelled ∧
    (storeGet (storeComplete [wTaskC1] "t1" "done" 5) "t1").map Task.status =
      some TaskStatus.completed := by
  decide

/-- C1 (amended): for a task in a terminal status, the timeout sweep
leaves the task unchanged and the `tasks dispatch` command refuses with an
error and leaves the whole store unchanged; the unguarded operations
(`assign`, manual `complete`/`fail`, `cancel`, poll-driven transitions)
can still overwrite a terminal task. -/
theorem terminal_guarded_ops (store : List Task) (now : Int) (i : Nat) (hi : i < store.length)
    (hnd : idsNodup store) (hterm : isTerminalStatus (store.get ⟨i, hi⟩).status = true) :
    (enforceTimeouts now store).2.get? i = some (store.get ⟨i, hi⟩) ∧
    (∀ (agentLookup : String → Option Agent) (ch : SshBehavior),
      isErrorResult (cliTasksDispatch store (store.get ⟨i, hi⟩).id agentLookup ch).1 = true ∧
      (cliTasksDispatch store (store.get ⟨i, hi⟩).id agentLookup ch).2 = store) := by
  have hov : overdue now (store.get ⟨i, hi⟩) = false :=
    overdue_false_of_terminal now _ hterm
  have hget : storeGet store (store.get ⟨i, hi⟩).id = some (store.get ⟨i, hi⟩) :=
    storeGet_of_mem_nodup _ store hnd (store.get_mem i hi)
  set t := store.get ⟨i, hi⟩ with hT
  constructor
  · rw [enforceTimeouts_eq now store hnd]
    simp only [List.get?_eq_getElem?, List.getElem?_map]
    rw [List.getElem?_eq_getElem hi]
    exact congrArg some (sweepStep_eq_self_of_not_overdue now _ hov)
  · intro agentLookup ch
    unfold cliTasksDispatch
    rw [hget]
    cases hassigned : t.assignedTo with
    | none => simp [hassigned, isErrorResult]
    | some aid => simp [hassigned, hterm, isErrorResult]

/-- C1 witness for the amended theorem, at a one-task store holding a
completed task. -/
theorem terminal_guarded_ops_witness :
    (enforceTimeouts 0 [wTaskTerm]).2.get? 0 = some wTaskTerm ∧
    isErrorResult (cliTasksDispatch [wTaskTerm] wTaskTerm.id (fun _ => none) wSshOk).1 = true ∧
    (cliTasksDispatch [wTaskTerm] wTaskTerm.id (fun _ => none) wSshOk).2 = [wTaskTerm] :=
  ⟨(terminal_guarded_ops [wTaskTerm] 0 0 (by decide) (by decide) (by decide)).1,
   ((terminal_guarded_ops [wTaskTerm] 0 0 (by decide) (by decide) (by decide)).2
     (fun _ => none) wSshOk).1,
   ((terminal_guarded_ops [wTaskTerm] 0 0 (by decide) (by decide) (by decide)).2
     (fun _ => none) wSshOk).2⟩

/-- C2: for every candidate worker (not offline, not an orchestrator) the
routing score is exactly 10 per verbatim required-capability match, plus 5
per worker capability occurring case-insensitively in the task
title+description, plus 1 per task-text word longer than 4 characters
occurring in the worker description, plus 3 for status `online`, plus 2
for a (truthy) session key; consequently a worker matching two required
capabilities scores exactly 20 more than an otherwise-identical worker
(equal fuzzy, word, status and session-key components) matching zero. -/
theorem routing_score_formula (t : Task) (a : Agent)
    (hs : a.status ≠ AgentStatus.offline) (hr : a.role ≠ AgentRole.orchestrator) :
    (routeScore t a =
      10 * exactMatchCount t a + 5 * fuzzyMatchCount t a + wordOverlapCount t a
        + (if a.status = AgentStatus.online then 3 else 0)
        + (if jsTruthy a.sessionKey then 2 else 0)) ∧
    (∀ b : Agent, b.status = a.status → b.sessionKey = a.sessionKey →
      fuzzyMatchCount t b = fuzzyMatchCount t a →
      wordOverlapCount t b = wordOverlapCount t a →
      exactMatchCount t a = 2 → exactMatchCount t b = 0 →
      routeScore t a = routeScore t b + 20) := by
  refine ⟨routeScore_eq t a, ?_⟩
  intro b hst hsk hf hw h2 h0
  rw [routeScore_eq t a, routeScore_eq t b, hst, hsk, hf, hw, h2, h0]
  ring

/-- C2 witness: `wAgent2` matches both required capabilities of `wTask2`,
`wAgent2b` matches none and is otherwise identical. -/
theorem routing_score_formula_witness :
    (routeScore wTask2 wAgent2 =
      10 * exactMatchCount wTask2 wAgent2 + 5 * fuzzyMatchCount wTask2 wAgent2
        + wordOverlapCount wTask2 wAgent2
        + (if wAgent2.status = AgentStatus.online then 3 else 0)
        + (if jsTruthy wAgent2.sessionKey then 2 else 0)) ∧
    routeScore wTask2 wAgent2 = routeScore wTask2 wAgent2b + 20 :=
  ⟨(routing_score_formula wTask2 wAgent2 (by decide) (by decide)).1,
   (routing_score_formula wTask2 wAgent2 (by decide) (by decide)).2 wAgent2b rfl rfl
     (by decide) (by decide) (by decide) (by decide)⟩

/-- C3: `routeTask` returns exactly the scored entries of the workers that
are not offline, not orchestrators and have positive score; the output is
sorted by score descending; entries of equal score keep the filtered
roster order (stability); offline workers and orchestrators never
appear. -/
theorem route_output_characterization (t : Task) (agents : List Agent) :
    (∀ r, r ∈ routeTask t agents ↔
      ∃ a, a ∈ agents ∧ a.status ≠ AgentStatus.offline ∧ a.role ≠ AgentRole.orchestrator ∧
        0 < routeScore t a ∧ scoreAgent t a = r) ∧
    (routeTask t agents).Pairwise (fun r1 r2 => r2.score ≤ r1.score) ∧
    (∀ v, (routeTask t agents).filter (fun r => r.score == v) =
      (routeCandidates t agents).filter (fun r => r.score == v)) ∧
    (∀ r ∈ routeTask t agents, r.agent.role ≠ AgentRole.orchestrator ∧
      r.agent.status ≠ AgentStatus.offline) := by
  refine ⟨mem_routeTask t agents, routeTask_sorted t agents, routeTask_stable t agents, ?_⟩
  intro r hr
  obtain ⟨a, _, hs, hrole, _, rfl⟩ := (mem_routeTask t agents r).mp hr
  exact ⟨hrole, hs⟩

/-- C3 witness: the online worker of `wRoster3` appears in the routed
output. -/
theorem route_output_characterization_witness :
    scoreAgent wTask3 wAgent3 ∈ routeTask wTask3 wRoster3 :=
  ((route_output_characterization wTask3 wRoster3).1 (scoreAgent wTask3 wAgent3)).mpr
    ⟨wAgent3, by decide, by decide, by decide, by decide, rfl⟩

/-- C4: after `set(k, v, s)` on a vault opened with password `p`, `get(k)`
returns exactly `v` with scope `s`; the map holds a single entry under
`k` (any prior entry is replaced regardless of its scope); and reopening
the saved file with the same password succeeds with the same key, so the
same `get(k)` still returns `v`. -/
theorem vault_roundtrip (p : String) (s : Nat) (m : SecretsMap) (k value : String)
    (scope : Option String) (fresh : Nat) (hnd : keysNodup m) :
    vaultSet ⟨deriveKey p s, s⟩ (vaultSave ⟨deriveKey p s, s⟩ m) k value scope =
      Except.ok (vaultSave ⟨deriveKey p s, s⟩ (mapSet m k ⟨value, scope⟩)) ∧
    vaultGet ⟨deriveKey p s, s⟩ (vaultSave ⟨deriveKey p s, s⟩ (mapSet m k ⟨value, scope⟩))
        k none = Except.ok (some ⟨value, scope⟩) ∧
    (mapSet m k ⟨value, scope⟩).countP (fun kv => kv.1 == k) = 1 ∧
    vaultOpen p (some (vaultSave ⟨deriveKey p s, s⟩ (mapSet m k ⟨value, scope⟩))) fresh =
      Except.ok (⟨deriveKey p s, s⟩, vaultSave ⟨deriveKey p s, s⟩ (mapSet m k ⟨value, scope⟩)) := by
  refine ⟨?_, ?_, countP_mapSet m k _ hnd, ?_⟩
  · simp [vaultSet, vaultLoad, vaultSave, encrypt, decrypt]
  · simp [vaultGet, vaultLoad, vaultSave, encrypt, decrypt, mapGet_mapSet_self, jsTruthy]
  · simp [vaultOpen, vaultSave, encrypt, decrypt, deriveKey]

/-- C4 witness at a concrete password, salt, map and scoped entry. -/
theorem vault_roundtrip_witness :
    vaultGet ⟨deriveKey "pw" 1, 1⟩
        (vaultSave ⟨deriveKey "pw" 1, 1⟩ (mapSet wMap4 "api" ⟨"v1", some "agentA"⟩))
        "api" none = Except.ok (some ⟨"v1", some "agentA"⟩) ∧
    vaultOpen "pw"
        (some (vaultSave ⟨deriveKey "pw" 1, 1⟩ (mapSet wMap4 "api" ⟨"v1", some "agentA"⟩))) 2 =
      Except.ok (⟨deriveKey "pw" 1, 1⟩,
        vaultSave ⟨deriveKey "pw" 1, 1⟩ (mapSet wMap4 "api" ⟨"v1", some "agentA"⟩)) :=
  ⟨(vault_roundtrip "pw" 1 wMap4 "api" "v1" (some "agentA") 2 (by decide)).2.1,
   (vault_roundtrip "pw" 1 wMap4 "api" "v1" (some "agentA") 2 (by decide)).2.2.2⟩

/-- C5: opening a vault file saved under password `p` with any password
`q ≠ p` fails with the invalid-password error; no vault (and hence no
entry) is ever returned. -/
theorem vault_wrong_password (p q : String) (s : Nat) (m : SecretsMap) (fresh : Nat)
    (hne : q ≠ p) :
    vaultOpen q (some (vaultSave ⟨deriveKey p s, s⟩ m)) fresh =
      Except.error "Invalid master password." := by
  have hpq : p ≠ q := fun h => hne h.symm
  simp [vaultOpen, vaultSave, encrypt, decrypt, deriveKey, VKey.mk.injEq, hpq]

/-- C5 witness. -/
theorem vault_wrong_password_witness :
    vaultOpen "nope" (some (vaultSave ⟨deriveKey "pw" 1, 1⟩ [])) 2 =
      Except.error "Invalid master password." :=
  vault_wrong_password "pw" "nope" 1 [] 2 (by decide)

/-- C6: for a stored entry under `k`: a scope filter different from the
entry's (nonempty) scope hides it; a global entry is returned under any
scope filter; and an unscoped `get` returns the entry whatever its scope.
(Scopes are agent ids, which are nonempty; the empty string is JavaScript-
falsy and acts as no filter / no scope in the source.) -/
theorem vault_scope_filter (v : SecretVault) (m : SecretsMap) (k : String)
    (entry : SecretEntry) (hget : mapGet m k = some entry) :
    (∀ A B, entry.agentId = some B → A ≠ "" → B ≠ "" → B ≠ A →
      vaultGet v (vaultSave v m) k (some A) = Except.ok none) ∧
    (∀ A, entry.agentId = none → vaultGet v (vaultSave v m) k (some A) =
      Except.ok (some entry)) ∧
    vaultGet v (vaultSave v m) k none = Except.ok (some entry) := by
  refine ⟨?_, ?_, ?_⟩
  · intro A B hB hA hBne hBA
    have c1 : (A != "") = true := bne_iff_ne.mpr hA
    have c3 : ((some B : Option String) != some A) = true := by
      simp [hBA]
    simp [vaultGet, vaultLoad, vaultSave, encrypt, decrypt, hget, hB, jsTruthy, c1, c3,
      bne_iff_ne, hBne]
  · intro A hentry
    simp [vaultGet, vaultLoad, vaultSave, encrypt, decrypt, hget, hentry, jsTruthy]
  · simp [vaultGet, vaultLoad, vaultSave, encrypt, decrypt, hget, jsTruthy]

/-- C6 witness: a scoped entry hidden from a different scope but visible
unscoped, and a global entry visible under a scope filter. -/
theorem vault_scope_filter_witness :
    vaultGet wVault6 (vaultSave wVault6 wMap6) "api" (some "agentA") = Except.ok none ∧
    vaultGet wVault6 (vaultSave wVault6 wMap6) "api" none =
      Except.ok (some ⟨"v1", some "agentB"⟩) ∧
    vaultGet wVault6 (vaultSave wVault6 wMap6g) "api" (some "agentA") =
      Except.ok (some ⟨"v2", none⟩) :=
  ⟨(vault_scope_filter wVault6 wMap6 "api" ⟨"v1", some "agentB"⟩ (by decide)).1
      "agentA" "agentB" rfl (by decide) (by decide) (by decide),
   (vault_scope_filter wVault6 wMap6 "api" ⟨"v1", some "agentB"⟩ (by decide)).2.2,
   (vault_scope_filter wVault6 wMap6g "api" ⟨"v2", none⟩ (by decide)).2.1 "agentA" rfl⟩

/-- C7: when any remote step of `dispatchViaSsh` (connect, exec, put)
raises, the call propagates an error, the persisted store is unchanged,
and an `assigned` task is still `assigned` (never `running`). -/
theorem dispatch_failure_leaves_state (ch : SshBehavior) (t : Task) (store : List Task)
    (hfail : isErrorResult ch.connectR = true ∨ isErrorResult ch.execR = true ∨
      isErrorResult ch.putR = true) :
    isErrorResult (dispatchViaSsh ch t store).1 = true ∧
    (dispatchViaSsh ch t store).2 = store ∧
    (∀ tk, storeGet store t.id = some tk → tk.status = TaskStatus.assigned →
      (storeGet (dispatchViaSsh ch t store).2 t.id).map Task.status =
        some TaskStatus.assigned) := by
  rcases hc : ch.connectR with e | u
  · constructor
    · simp [dispatchViaSsh, hc, isErrorResult]
    · constructor
      · simp [dispatchViaSsh, hc]
      · intro tk hget hst
        simp [dispatchViaSsh, hc, hget, hst]
  · rcases he : ch.execR with e | u2
    · constructor
      · simp [dispatchViaSsh, hc, he, isErrorResult]
      · constructor
        · simp [dispatchViaSsh, hc, he]
        · intro tk hget hst
          simp [dispatchViaSsh, hc, he, hget, hst]
    · rcases hp : ch.putR with e | u3
      · constructor
        · simp [dispatchViaSsh, hc, he, hp, isErrorResult]
        · constructor
          · simp [dispatchViaSsh, hc, he, hp]
          · intro tk hget hst
            simp [dispatchViaSsh, hc, he, hp, hget, hst]
      · exfalso
        rcases hfail with h | h | h <;> simp [hc, he, hp, isErrorResult] at h

/-- C7 witness: a failing connect leaves a one-task store unchanged. -/
theorem dispatch_failure_leaves_state_witness :
    isErrorResult (dispatchViaSsh wSsh7 wTask7 [wTask7]).1 = true ∧
    (dispatchViaSsh wSsh7 wTask7 [wTask7]).2 = [wTask7] :=
  ⟨(dispatch_failure_leaves_state wSsh7 wTask7 [wTask7] (Or.inl (by decide))).1,
   (dispatch_failure_leaves_state wSsh7 wTask7 [wTask7] (Or.inl (by decide))).2.1⟩

/-- C8: one sweep fails exactly the overdue tasks (status `running` or
`assigned`, truthy declared timeout, elapsed time since `assignedAt`
falling back to `createdAt` exceeding it), rewriting each to `failed`
with the generated message embedding the timeout and the rounded elapsed
seconds, and returns their count; a second sweep at the same instant
changes nothing and returns 0. -/
theorem timeout_sweep_exactly_once (now : Int) (store : List Task) (h : idsNodup store) :
    (enforceTimeouts now store).1 = store.countP (overdue now) ∧
    (∀ i (hi : i < store.length),
      (enforceTimeouts now store).2.get? i =
        some (if overdue now (store.get ⟨i, hi⟩) then
          applyFail (sweepMsg (store.get ⟨i, hi⟩) now) now (store.get ⟨i, hi⟩)
        else store.get ⟨i, hi⟩)) ∧
    (enforceTimeouts now (enforceTimeouts now store).2).1 = 0 ∧
    (enforceTimeouts now (enforceTimeouts now store).2).2 = (enforceTimeouts now store).2 := by
  have he := enforceTimeouts_eq now store h
  have h1 : idsNodup (enforceTimeouts now store).2 := by
    rw [he]
    exact idsNodup_map_sweepStep now store h
  have he2 := enforceTimeouts_eq now (enforceTimeouts now store).2 h1
  have hz : (enforceTimeouts now store).2.countP (overdue now) = 0 := by
    rw [List.countP_eq_zero]
    intro a ha
    rw [he] at ha
    simp [overdue_after_sweep now store a ha]
  have hmapeq : (enforceTimeouts now store).2.map (sweepStep now) =
      (enforceTimeouts now store).2 := by
    have h' : ∀ a ∈ (enforceTimeouts now store).2, sweepStep now a = id a := by
      intro a ha
      rw [he] at ha
      exact sweepStep_eq_self_of_not_overdue now a (overdue_after_sweep now store a ha)
    rw [List.map_congr_left h', List.map_id]
  refine ⟨by rw [he], ?_, ?_, ?_⟩
  · intro i hi
    rw [he]
    simp only [List.get?_eq_getElem?, List.getElem?_map]
    rw [List.getElem?_eq_getElem hi]
    rfl
  · rw [he2, hz]
  · rw [he2]
    exact hmapeq

/-- C8 witness. -/
theorem timeout_sweep_exactly_once_witness :
    (enforceTimeouts 120000 [wTask8]).1 = [wTask8].countP (overdue 120000) ∧
    (enforceTimeouts 120000 (enforceTimeouts 120000 [wTask8]).2).1 = 0 :=
  ⟨(timeout_sweep_exactly_once 120000 [wTask8] (by decide)).1,
   (timeout_sweep_exactly_once 120000 [wTask8] (by decide)).2.2.1⟩

/-- C9: the poll checks the result artifact before the error artifact: a
(nontrivial) result file yields `completed` with its trimmed content even
when an error file is present; with no result file, an error file yields
`failed` with its content; with neither, the poll reports `running` and
the store is not mutated. -/
theorem poll_result_before_error (files : WorkerFiles) :
    (∀ r, files.resultFile = some r → strTrim r != "__NOT_FOUND__" →
      pollTaskResult files = PollOutcome.completed (strTrim r)) ∧
    (∀ e, files.resultFile = none → files.errorFile = some e →
      strTrim e != "__NOT_FOUND__" → pollTaskResult files = PollOutcome.failed (strTrim e)) ∧
    (files.resultFile = none → files.errorFile = none →
      pollTaskResult files = PollOutcome.running ∧
      ∀ store i now, pollCheckOnce store i files now = (store, false)) := by
  have hnf : strTrim "__NOT_FOUND__" = "__NOT_FOUND__" := by decide
  refine ⟨?_, ?_, ?_⟩
  · intro r hr htrim
    simp [pollTaskResult, catOrNotFound, hr, htrim]
  · intro e hr he htrim
    simp [pollTaskResult, catOrNotFound, hr, he, htrim, hnf]
  · intro hr he
    constructor
    · simp [pollTaskResult, catOrNotFound, hr, he, hnf]
    · intro store i now
      simp [pollCheckOnce, pollTaskResult, catOrNotFound, hr, he, hnf]

/-- C9 witness: the three artifact situations at concrete contents. -/
theorem poll_result_before_error_witness :
    pollTaskResult ⟨some "done", some "bad"⟩ = PollOutcome.completed (strTrim "done") ∧
    pollTaskResult ⟨none, some "oops"⟩ = PollOutcome.failed (strTrim "oops") ∧
    pollTaskResult ⟨none, none⟩ = PollOutcome.running :=
  ⟨(poll_result_before_error ⟨some "done", some "bad"⟩).1 "done" rfl (by decide),
   (poll_result_before_error ⟨none, some "oops"⟩).2.1 "oops" rfl rfl (by decide),
   ((poll_result_before_error ⟨none, none⟩).2.2 rfl rfl).1⟩

/-- C10: a task whose `timeoutSeconds` is 0 is never overdue and never
failed by the sweep, no matter how much time has elapsed — exactly like a
task with no timeout at all (both are JavaScript-falsy). -/
theorem zero_timeout_never_fails (now : Int) (t : Task) (ht : t.timeoutSeconds = some 0) :
    overdue now t = false ∧ sweepStep now t = t ∧
    overdue now { t with timeoutSeconds := none } = false ∧
    (∀ store (h : idsNodup store) (i : Nat) (hi : i < store.length),
      store.get ⟨i, hi⟩ = t → (enforceTimeouts now store).2.get? i = some t) := by
  have hov : overdue now t = false := by
    simp [overdue, tsTruthy, ht]
  refine ⟨hov, sweepStep_eq_self_of_not_overdue now t hov, ?_, ?_⟩
  · simp [overdue, tsTruthy]
  · intro store h i hi hget
    rw [enforceTimeouts_eq now store h]
    simp only [List.get?_eq_getElem?, List.getElem?_map]
    rw [List.getElem?_eq_getElem hi]
    rw [show store[i] = t from hget]
    simp [sweepStep_eq_self_of_not_overdue now t hov]

/-- C10 witness: a zero-timeout running task far past assignment is not
swept. -/
theorem zero_timeout_never_fails_witness :
    overdue 999999999 wTask10 = false ∧ sweepStep 999999999 wTask10 = wTask10 :=
  ⟨(zero_timeout_never_fails 999999999 wTask10 rfl).1,
   (zero_timeout_never_fails 999999999 wTask10 rfl).2.1⟩

end Clawctl
